import Mathlib

/-!
# Verification of the fin-x-watcher resilience and scoring pipeline

Shallow embedding of the core components of `src/tools.py`:
the circuit breaker, the retry/backoff wrapper, the credibility scorer,
the tweet-volume trend fallback, the sentiment-classifier entry point,
and the deduplicating stream monitor.  Machine floats are modelled by
exact rationals; `time.time()` / `datetime.now()` values are explicit
rational parameters; `random.uniform(-r, r)` is modelled by an explicit
admissible draw `u ∈ [-1, 1]` scaled by `r`.
-/

namespace FinXWatcher

/-! ## Circuit breaker (`CircuitBreaker` in `src/tools.py`) -/

/-- Tri-state of the breaker.  `opn` embeds the Python `OPEN` state
(`open` is a Lean keyword). -/
inductive CircuitState where
  | closed
  | opn
  | halfOpen
deriving DecidableEq, Repr

/-- State of `CircuitBreaker` (`src/tools.py` lines 46-63): configuration
plus mutable counters.  Times are rationals standing for `time.time()`. -/
structure CircuitBreaker where
  failure_threshold : ℕ
  recovery_timeout : ℚ
  half_open_max_calls : ℕ
  state : CircuitState
  failure_count : ℕ
  last_failure_time : ℚ
  half_open_calls : ℕ
deriving DecidableEq, Repr

/-- `CircuitBreaker.can_execute` (lines 65-76).  Takes the current time and
returns the decision together with the (possibly updated) breaker: in the
`OPEN` state, once `recovery_timeout` has elapsed since the last failure it
moves to `HALF_OPEN` and resets the probe counter. -/
def can_execute (cb : CircuitBreaker) (now : ℚ) : Bool × CircuitBreaker :=
  match cb.state with
  | .closed => (true, cb)
  | .opn =>
    if cb.recovery_timeout ≤ now - cb.last_failure_time then
      (true, { cb with state := .halfOpen, half_open_calls := 0 })
    else
      (false, cb)
  | .halfOpen => (decide (cb.half_open_calls < cb.half_open_max_calls), cb)

/-- `CircuitBreaker.record_success` (lines 78-86). -/
def record_success (cb : CircuitBreaker) : CircuitBreaker :=
  match cb.state with
  | .halfOpen =>
    let hoc := cb.half_open_calls + 1
    if cb.half_open_max_calls ≤ hoc then
      { cb with half_open_calls := hoc, state := .closed, failure_count := 0 }
    else
      { cb with half_open_calls := hoc }
  | .closed => { cb with failure_count := 0 }
  | .opn => cb

/-- `CircuitBreaker.record_failure` (lines 88-93): increments the failure
count, timestamps the failure, and opens when the source's disjunction
`state == HALF_OPEN or failure_count >= failure_threshold` holds (the
half-open disjunct is split out as the first match arm). -/
def record_failure (cb : CircuitBreaker) (now : ℚ) : CircuitBreaker :=
  let fc := cb.failure_count + 1
  match cb.state with
  | .halfOpen =>
    { cb with failure_count := fc, last_failure_time := now, state := .opn }
  | _ =>
    if cb.failure_threshold ≤ fc then
      { cb with failure_count := fc, last_failure_time := now, state := .opn }
    else
      { cb with failure_count := fc, last_failure_time := now }

/-- A sequence of `record_failure` calls at the given times. -/
def recordFailures (cb : CircuitBreaker) (times : List ℚ) : CircuitBreaker :=
  times.foldl record_failure cb

/-- The transitions the spec admits for one breaker operation observed at
time `now`: stay put, `closed→open` once the failure count has reached the
threshold, `open→half_open` once the recovery timeout has elapsed (with the
probe counter reset), `half_open→closed` on the probe quota being filled by
a success, or `half_open→open` on any failure. -/
def StepAllowed (pre post : CircuitBreaker) (now : ℚ) : Prop :=
  post.state = pre.state ∨
  (pre.state = .closed ∧ post.state = .opn ∧
    pre.failure_threshold ≤ post.failure_count) ∨
  (pre.state = .opn ∧ post.state = .halfOpen ∧
    pre.recovery_timeout ≤ now - pre.last_failure_time ∧ post.half_open_calls = 0) ∨
  (pre.state = .halfOpen ∧ post.state = .closed ∧
    pre.half_open_max_calls ≤ pre.half_open_calls + 1) ∨
  (pre.state = .halfOpen ∧ post.state = .opn)

/-! ## Backoff policy (`exponential_backoff_with_jitter`, lines 107-116) -/

/-- `exponential_backoff_with_jitter`: `min(base_delay * 2^attempt, max_delay)`
plus `random.uniform(-jitter_range, jitter_range)`, the random draw modelled
by an explicit `u` scaled by the jitter range (admissible draws have
`-1 ≤ u ≤ 1`). -/
def exponential_backoff_with_jitter
    (attempt : ℕ) (base_delay max_delay jitter u : ℚ) : ℚ :=
  let delay := min (base_delay * 2 ^ attempt) max_delay
  let jitter_range := delay * jitter
  delay + u * jitter_range

/-! ## Retry wrapper and the fetch attempt (`with_retry`, lines 119-135,
and the breaker-facing skeleton of `search_recent_tweets`, lines 190-213) -/

/-- Error kinds a fetch attempt can raise: the breaker-open rejection raised
before any network I/O (line 213), or an API error raised after a failed
network call (lines 306-317).  Both are plain `Exception`s in the source and
both are caught by `with_retry`'s `except exceptions` clause. -/
inductive FetchErr where
  | breakerOpen
  | apiError
deriving DecidableEq, Repr

/-- Trace of one call to the `with_retry`-wrapped fetcher: the outcome
(`none` = success), the number of attempts the wrapper made, the number of
attempts that reached network I/O, and the final breaker state. -/
structure CallTrace where
  result : Option FetchErr
  attempts : ℕ
  netAttempts : ℕ
  cb : CircuitBreaker
deriving DecidableEq, Repr

/-- One attempt of `search_recent_tweets` at time `now`: first consult the
breaker (raising the breaker-open error with **no** network I/O when it
refuses), otherwise perform the network call whose outcome `net_ok` the
environment dictates, recording success or failure on the breaker.
Returns (outcome, breaker, whether network I/O was attempted). -/
def search_attempt (cb : CircuitBreaker) (now : ℚ) (net_ok : Bool) :
    Option FetchErr × CircuitBreaker × Bool :=
  let gate := can_execute cb now
  if gate.1 then
    if net_ok then (none, record_success gate.2, true)
    else (some .apiError, record_failure gate.2 now, true)
  else
    (some .breakerOpen, gate.2, false)

/-- The loop body of `with_retry` (lines 123-133): run up to `fuel` further
attempts, remembering the last raised error; when the attempts are exhausted
the last error is re-raised to the caller.  `idx` feeds the per-attempt
network oracle; `nAtt`/`nNet` accumulate the trace. -/
def retryGo (now : ℚ) (net : ℕ → Bool) :
    ℕ → ℕ → CircuitBreaker → ℕ → ℕ → Option FetchErr → CallTrace
  | 0, _, cb, nAtt, nNet, lastErr => ⟨lastErr, nAtt, nNet, cb⟩
  | fuel + 1, idx, cb, nAtt, nNet, _ =>
    match search_attempt cb now (net idx) with
    | (none, cb1, didNet) =>
      ⟨none, nAtt + 1, if didNet then nNet + 1 else nNet, cb1⟩
    | (some e, cb1, didNet) =>
      retryGo now net fuel (idx + 1) cb1 (nAtt + 1)
        (if didNet then nNet + 1 else nNet) (some e)

/-- `search_recent_tweets` as called through its `@with_retry(max_attempts=3,
exceptions=(Exception,))` decorator: three attempts, every raised exception —
the breaker-open rejection included — caught and retried while attempts
remain. -/
def searchWithRetry (cb : CircuitBreaker) (now : ℚ) (net : ℕ → Bool) : CallTrace :=
  retryGo now net 3 0 cb 0 0 none

/-! ## Credibility scorer (fetch path, `search_recent_tweets` lines 252-273) -/

/-- The per-post scores computed inline in `search_recent_tweets`. -/
structure ScoredPost where
  engagement_score : ℚ
  verification_weight : ℚ
  influence_score : ℚ
  credibility_score : ℚ
deriving DecidableEq, Repr

/-- The scoring block of `search_recent_tweets` (lines 252-273): weighted
engagement, verification weight from the author's `verified_type` / `verified`
flag, follower influence capped at 10, and the combined credibility score. -/
def score_post (likes retweets replies quotes : ℕ) (is_verified : Bool)
    (verified_type : String) (followers : ℕ) : ScoredPost :=
  let engagement_score : ℚ :=
    (retweets : ℚ) * 3 + (quotes : ℚ) * 2 + (replies : ℚ) * (3 / 2) + (likes : ℚ)
  let verification_weight : ℚ :=
    if verified_type = "business" ∨ verified_type = "government" then 2
    else if is_verified then 3 / 2 else 1
  let influence_score : ℚ := min ((followers : ℚ) / 10000) 10
  ⟨engagement_score, verification_weight, influence_score,
    engagement_score * verification_weight + influence_score * 10⟩

/-! ## Trend fallback (`get_tweet_counts`, lines 334-385) -/

/-- The dictionary `get_tweet_counts` returns (claim-relevant fields). -/
structure TrendResult where
  total_count : ℕ
  time_series : List ℕ
  velocity_change_percent : ℚ
  is_spiking : Bool
  error : Bool
deriving DecidableEq, Repr

/-- The sampling loop of `get_tweet_counts` (lines 357-366): add each page's
data length, stopping once the sample reaches 100. -/
def countSample : List ℕ → ℕ → ℕ
  | [], acc => acc
  | p :: ps, acc =>
    let acc' := acc + p
    if 100 ≤ acc' then acc' else countSample ps acc'

/-- `get_tweet_counts` (lines 334-385): on a successful fetch, returns the
sampled count with an **empty** time series, zero velocity and
`is_spiking = sampled_count > 50`; on any exception, the error marker with
zeroes.  `pages` lists the `len(page['data'])` of each fetched page. -/
def get_tweet_counts (pages : List ℕ) (fetch_ok : Bool) : TrendResult :=
  if fetch_ok then
    let c := countSample pages 0
    ⟨c, [], 0, decide (50 < c), false⟩
  else
    ⟨0, [], 0, false, true⟩

/-- The trend detector of the specification, modelled from the spec's words
for comparison with `get_tweet_counts`: split the bucketed series at the
midpoint, `velocity = (recent_sum - older_sum) / older_sum * 100` with the
`older_sum = 0` convention, `is_spiking = velocity > 50`. -/
def specTrendDetector (series : List ℕ) : ℚ × Bool :=
  if series.length < 2 then (0, false)
  else
    let mid := series.length / 2
    let older : ℚ := ((series.take mid).sum : ℚ)
    let recent : ℚ := ((series.drop mid).sum : ℚ)
    let velocity : ℚ :=
      if older = 0 then (if 0 < recent then 100 else 0)
      else (recent - older) / older * 100
    (velocity, decide (50 < velocity))

/-! ## Python `round(x, 1)` -/

/-- Round-half-even to an integer, the idealised semantics of Python's
`round` on exact values. -/
def round_half_even (q : ℚ) : ℤ :=
  let f := ⌊q⌋
  if q - f < 1 / 2 then f
  else if 1 / 2 < q - f then f + 1
  else if f % 2 = 0 then f else f + 1

/-- Python `round(x, 1)` over exact rationals. -/
def pyRound1 (q : ℚ) : ℚ := (round_half_even (q * 10) : ℚ) / 10

/-! ## Live-stream author credibility (`_calculate_credibility`, lines 593-603) -/

/-- `XAPIClient._calculate_credibility` (lines 593-603), the score attached
to each streamed post's author by `stream_posts` (lines 574-579): follower
score capped at 50, a tier bonus only when `verified` is set, and the result
rounded to one decimal place. -/
def calculate_credibility (followers : ℕ) (verified : Bool)
    (verified_type : String) : ℚ :=
  let score := min ((followers : ℚ) / 1000) 50
  let score :=
    if verified then
      if verified_type = "business" then score + 40
      else if verified_type = "government" then score + 50
      else score + 25
    else score
  pyRound1 score

/-! ## Sentiment classifier entry (`GrokClient.analyze_sentiment`, lines 1120-1156) -/

/-- A fetched tweet as handed to the classifier (claim-relevant fields of the
dictionaries built by `search_recent_tweets`). -/
structure FetchedTweet where
  id : String
  text : String
  author_verified : Bool
  engagement_score : ℚ
  credibility_score : ℚ
deriving DecidableEq, Repr

/-- The risk verdict `analyze_sentiment` returns (claim-relevant fields). -/
structure Verdict where
  risk_level : String
  summary : String
  key_findings : List String
  tweet_count : ℕ
deriving DecidableEq, Repr

/-- `GrokClient.analyze_sentiment` (lines 1120-1156) at the level the claim
concerns: with an empty post list it returns the `LOW` verdict of lines
1146-1156 without consulting the model; otherwise it defers to the external
LLM collaborator, abstracted as `classify`. -/
def analyze_sentiment (classify : List FetchedTweet → Verdict)
    (bank_name : String) (tweets : List FetchedTweet) : Verdict :=
  if tweets.isEmpty then
    ⟨"LOW", "No recent tweets found mentioning " ++ bank_name ++ ".", [], 0⟩
  else
    classify tweets

/-! ## Stream monitor (`StreamMonitor`, lines 2260-2682)

The live loop of `StreamMonitor.stream` consumes the enriched posts yielded
by `stream_posts`.  A feed item is either an error dictionary (the
`post.get("error")` branch) or a post; each item carries the wall-clock time
(in minutes, for the 5-minute volume window) at which it is processed. -/

/-- Author data attached by `stream_posts` (lines 563-579). -/
structure StreamAuthor where
  username : String
  verified : Bool
  verified_type : String
  followers : ℕ
  following : ℕ
deriving DecidableEq, Repr

/-- An enriched post yielded by `stream_posts` as consumed by the monitor
loop: id, text, the tags of the matching stream rules, the public metrics,
and the (possibly absent) author block. -/
structure StreamPost where
  id : String
  text : String
  matching_rule_tags : List String
  retweets : ℕ
  replies : ℕ
  likes : ℕ
  quotes : ℕ
  author : Option StreamAuthor
deriving DecidableEq, Repr

/-- `total_engagement` as computed in `stream_posts` (lines 519-524). -/
def totalEngagement (p : StreamPost) : ℕ :=
  p.retweets + p.replies + p.likes + p.quotes

/-- A monitored institution's entry in `monitored_institutions`
(lines 2340-2346, claim-relevant fields). -/
structure Institution where
  name : String
  itype : String
  risk_keywords : List String
deriving DecidableEq, Repr

/-- Events yielded by `StreamMonitor.stream`, one constructor per `type`
value of the emitted dictionaries. -/
inductive Event where
  | tweet (id institution institution_type : String) (risk_signals : List String)
      (urgency : String) (urgency_score : ℚ) (volume_status : Bool × ℕ)
  | alert (alert_reason institution : String)
  | volumeSpike (institution : String) (tweets_in_window : ℕ)
  | reconnecting (attempt : ℕ) (wait_seconds : ℚ)
  | errorEvent (message : String)
deriving DecidableEq, Repr

/-- Mutable state of the monitor loop: the institution map (keyed by the
lowercased name), the seen-id set in insertion order, the event buffer, the
per-institution volume trackers, and the reconnect counter. -/
structure MonitorState where
  monitored : List (String × Institution)
  seen_ids : List String
  event_buffer : List Event
  volume : List (String × List ℚ)
  reconnect_attempts : ℕ
deriving DecidableEq, Repr

/-- Python's `str.lower()` (ASCII case folding, characterwise). -/
def toLowerStr (s : String) : String := String.mk (s.data.map Char.toLower)

/-- `str.replace("sentinel_", "")`: erase every occurrence of the tag
marker, left to right, as Python's `str.replace` does.  The fuel argument
(instantiated with the list length, which bounds the number of recursive
steps) keeps the recursion structural. -/
def eraseSentinelGo : ℕ → List Char → List Char
  | 0, l => l
  | _ + 1, [] => []
  | fuel + 1, c :: cs =>
    if "sentinel_".data.isPrefixOf (c :: cs) then
      eraseSentinelGo fuel ((c :: cs).drop 9)
    else
      c :: eraseSentinelGo fuel cs

/-- `tag.replace("sentinel_", "")`. -/
def eraseSentinel (l : List Char) : List Char := eraseSentinelGo l.length l

/-- The rule-matching loop of `stream` (lines 2560-2569): the first tag
starting with `sentinel_` whose stripped key is a monitored institution. -/
def findMatch (monitored : List (String × Institution)) :
    List String → Option Institution
  | [] => none
  | tag :: rest =>
    if "sentinel_".data.isPrefixOf tag.data then
      match monitored.lookup (String.mk (eraseSentinel tag.data)) with
      | some inst => some inst
      | none => findMatch monitored rest
    else
      findMatch monitored rest

/-- Whether `ns` occurs as a contiguous run of `haystack`. -/
def containsSub (ns : List Char) : List Char → Bool
  | [] => ns.isEmpty
  | c :: cs => ns.isPrefixOf (c :: cs) || containsSub ns cs

/-- Python's `needle in haystack` on strings. -/
def strContains (haystack needle : String) : Bool :=
  containsSub needle.data haystack.data

/-- The risk-signal loop (lines 2571-2578): keywords of the matched
institution occurring in the lowercased text. -/
def riskSignals (inst : Institution) (text : String) : List String :=
  inst.risk_keywords.filter
    (fun k => strContains (toLowerStr text) (toLowerStr k))

/-- Update one binding of an association list. -/
def setVolume : List (String × List ℚ) → String → List ℚ → List (String × List ℚ)
  | [], _, _ => []
  | (k', v') :: rest, k, v =>
    if k' = k then (k, v) :: rest else (k', v') :: setVolume rest k v

/-- `StreamMonitor._check_volume_spike` (lines 2473-2502): prune entries
older than the 5-minute window, append `now`, report
`(is_spiking, tweets_in_window)` and the updated trackers.  An unknown
institution reports no spike and leaves the trackers untouched. -/
def check_volume_spike (vol : List (String × List ℚ)) (institution : String)
    (now : ℚ) : (Bool × ℕ) × List (String × List ℚ) :=
  let key := toLowerStr institution
  match vol.lookup key with
  | none => ((false, 0), vol)
  | some ts =>
    let ts' := ts.filter (fun t => decide (now - 5 < t)) ++ [now]
    ((decide (10 < ts'.length), ts'.length), setVolume vol key ts')

/-- The body of the stream loop for an unseen post (lines 2554-2631): record
the id (evicting half the seen set past the 10000 cap), match the post to an
institution, collect risk signals, score urgency, check the volume window,
emit the `tweet` event (followed by an `alert` event on high urgency or
engagement at or above the threshold 50, and a `volume_spike` event when the
window is spiking), and buffer the event with truncation past 500. -/
def handleNew (st : MonitorState) (now : ℚ) (p : StreamPost) :
    List Event × MonitorState :=
  let seen1 := st.seen_ids ++ [p.id]
  let seen2 := if 10000 < seen1.length then seen1.drop 5000 else seen1
  let minst := findMatch st.monitored p.matching_rule_tags
  let signals := match minst with
    | some inst => riskSignals inst p.text
    | none => []
  let verified := (p.author.map StreamAuthor.verified).getD false
  let followers := (p.author.map StreamAuthor.followers).getD 0
  let score : ℚ := (signals.length : ℚ) * 10 + (totalEngagement p : ℚ) / 10 +
    (if verified then 20 else 0) + (if 10000 < followers then 10 else 0)
  let urgency :=
    if 50 ≤ score ∨ 3 ≤ signals.length then "high"
    else if 20 ≤ score ∨ 1 ≤ signals.length then "medium"
    else "low"
  let instName := (minst.map Institution.name).getD "unknown"
  let instType := (minst.map Institution.itype).getD "unknown"
  let volRes := check_volume_spike st.volume instName now
  let ev := Event.tweet p.id instName instType signals urgency
    (pyRound1 score) volRes.1
  let buf1 := st.event_buffer ++ [ev]
  let buf2 := if 500 < buf1.length then buf1.drop (buf1.length - 250) else buf1
  let alerts :=
    if urgency = "high" ∨ 50 ≤ totalEngagement p then
      [Event.alert (if urgency = "high" then "high_urgency" else "high_engagement")
        instName]
    else []
  let spikes := if volRes.1.1 then [Event.volumeSpike instName volRes.1.2] else []
  (ev :: (alerts ++ spikes), ⟨st.monitored, seen2, buf2, volRes.2, 0⟩)

/-- One iteration of the stream loop (lines 2517-2631): an error item runs
the reconnect logic (emitting `reconnecting`, or the terminal `error` event
and a stop signal past 5 attempts); a post item resets the reconnect counter
and is dropped when already seen.  Returns (events, state) and the stop
flag. -/
def processPost (st : MonitorState) (item : ℚ × Except String StreamPost) :
    (List Event × MonitorState) × Bool :=
  match item.2 with
  | .error e =>
    let ra := st.reconnect_attempts + 1
    if ra ≤ 5 then
      (([Event.reconnecting ra ((2 : ℚ) ^ ra)],
        { st with reconnect_attempts := ra }), false)
    else
      (([Event.errorEvent e], { st with reconnect_attempts := ra }), true)
  | .ok p =>
    let st0 := { st with reconnect_attempts := 0 }
    if p.id ∈ st0.seen_ids then (([], st0), false)
    else (handleNew st0 item.1 p, false)

/-- Run the stream loop over a finite feed, stopping at the terminal error
event as the source's `break` does. -/
def processFeed (st : MonitorState) :
    List (ℚ × Except String StreamPost) → List Event × MonitorState
  | [] => ([], st)
  | item :: rest =>
    let r := processPost st item
    if r.2 then r.1
    else
      let next := processFeed r.1.2 rest
      (r.1.1 ++ next.1, next.2)

/-- Number of `tweet` events carrying the given id. -/
def countTweetEv (i : String) (evs : List Event) : ℕ :=
  evs.countP (fun e => match e with
    | .tweet j _ _ _ _ _ _ => j = i
    | _ => false)

/-- Whether a feed item is a post (not an error dictionary). -/
def isOkItem (item : ℚ × Except String StreamPost) : Bool :=
  match item.2 with
  | .ok _ => true
  | .error _ => false

/-- The ids of the post items of a feed. -/
def okIds (items : List (ℚ × Except String StreamPost)) : List String :=
  items.filterMap (fun item => match item.2 with
    | .ok p => some p.id
    | .error _ => none)

/-- The risk signals the loop collects for a post: the matched institution's
keywords occurring in the text, or none when no institution matches. -/
def matchedSignals (st : MonitorState) (p : StreamPost) : List String :=
  match findMatch st.monitored p.matching_rule_tags with
  | some inst => riskSignals inst p.text
  | none => []

/-- The institution name attached to a post's events (`"unknown"` when no
rule tag matches a monitored institution). -/
def matchedName (st : MonitorState) (p : StreamPost) : String :=
  ((findMatch st.monitored p.matching_rule_tags).map Institution.name).getD
    "unknown"

/-- The institution type attached to a post's events. -/
def matchedType (st : MonitorState) (p : StreamPost) : String :=
  ((findMatch st.monitored p.matching_rule_tags).map Institution.itype).getD
    "unknown"

/-- The urgency score of lines 2585-2591:
`10 * matched_keyword_count + total_engagement / 10`, plus 20 when the
author is verified and 10 when the author has more than 10000 followers. -/
def urgencyScoreOf (st : MonitorState) (p : StreamPost) : ℚ :=
  ((matchedSignals st p).length : ℚ) * 10 + (totalEngagement p : ℚ) / 10 +
    (if (p.author.map StreamAuthor.verified).getD false then 20 else 0) +
    (if 10000 < (p.author.map StreamAuthor.followers).getD 0 then 10 else 0)

/-- The urgency label of lines 2593-2596. -/
def urgencyLabel (st : MonitorState) (p : StreamPost) : String :=
  if 50 ≤ urgencyScoreOf st p ∨ 3 ≤ (matchedSignals st p).length then "high"
  else if 20 ≤ urgencyScoreOf st p ∨ 1 ≤ (matchedSignals st p).length then
    "medium"
  else "low"

/-! ## Test fixture -/

/-- A breaker as constructed by `XAPIClient.__init__` (lines 172-176):
`failure_threshold=5, recovery_timeout=60, half_open_max_calls=3`, closed,
no recorded failures. -/
def freshBreaker : CircuitBreaker := ⟨5, 60, 3, .closed, 0, 0, 0⟩

/-- A monitored crypto exchange, as `add_institution` would record it. -/
def coinbaseInst : Institution :=
  ⟨"Coinbase", "crypto_exchange", ["hack", "outage"]⟩

/-- A monitor watching one institution, with an empty volume window. -/
def coinbaseMonitor : MonitorState :=
  ⟨[("coinbase", coinbaseInst)], [], [], [("coinbase", [])], 0⟩

/-- A streamed post matching the Coinbase rule with two risk keywords, a
verified business author above the follower threshold, and engagement 100. -/
def alertPost : StreamPost :=
  ⟨"t1", "Coinbase hack and outage reported", ["sentinel_coinbase"],
    10, 10, 70, 10, some ⟨"alice", true, "business", 20000, 10⟩⟩

/-- A monitor watching nothing. -/
def emptyMonitor : MonitorState := ⟨[], [], [], [], 0⟩

/-- A minimal streamed post used to exercise deduplication. -/
def plainPost : StreamPost := ⟨"t2", "hello", [], 0, 0, 0, 0, none⟩

/-! ## Helper lemmas -/

theorem weight_pos (likes retweets replies quotes : ℕ) (is_verified : Bool)
    (verified_type : String) (followers : ℕ) :
    0 < (score_post likes retweets replies quotes is_verified verified_type
      followers).verification_weight := by
  simp only [score_post]
  split
  · norm_num
  · split <;> norm_num

theorem can_execute_open_early (cb : CircuitBreaker) (t : ℚ)
    (hs : cb.state = .opn) (ht : t - cb.last_failure_time < cb.recovery_timeout) :
    can_execute cb t = (false, cb) := by
  simp only [can_execute, hs]
  rw [if_neg (not_le.mpr ht)]

theorem can_execute_open_elapsed (cb : CircuitBreaker) (t : ℚ)
    (hs : cb.state = .opn) (ht : cb.recovery_timeout ≤ t - cb.last_failure_time) :
    can_execute cb t = (true, { cb with state := .halfOpen, half_open_calls := 0 }) := by
  simp only [can_execute, hs]
  rw [if_pos ht]

theorem record_failure_count (cb : CircuitBreaker) (t : ℚ) :
    (record_failure cb t).failure_count = cb.failure_count + 1 := by
  rcases cb with ⟨ft, rt, hm, st, fc, lt, hoc⟩
  cases st <;> simp only [record_failure] <;> split <;> rfl

theorem record_failure_config (cb : CircuitBreaker) (t : ℚ) :
    (record_failure cb t).failure_threshold = cb.failure_threshold ∧
    (record_failure cb t).recovery_timeout = cb.recovery_timeout ∧
    (record_failure cb t).half_open_max_calls = cb.half_open_max_calls := by
  rcases cb with ⟨ft, rt, hm, st, fc, lt, hoc⟩
  cases st <;> simp only [record_failure] <;>
    first
      | simp
      | (split <;> simp)

theorem record_failure_state_opn (cb : CircuitBreaker) (t : ℚ)
    (h : cb.state = .opn) : (record_failure cb t).state = .opn := by
  simp only [record_failure, h]
  split <;> rfl

theorem record_failure_state_closed (cb : CircuitBreaker) (t : ℚ)
    (h : cb.state = .closed)
    (hth : ¬ cb.failure_threshold ≤ cb.failure_count + 1) :
    (record_failure cb t).state = .closed := by
  simp only [record_failure, h]
  rw [if_neg hth]

theorem record_failure_opens (cb : CircuitBreaker) (t : ℚ)
    (h : cb.state = .closed)
    (hth : cb.failure_threshold ≤ cb.failure_count + 1) :
    (record_failure cb t).state = .opn := by
  simp only [record_failure, h]
  rw [if_pos hth]

theorem recordFailures_opn_stays (ts : List ℚ) (cb : CircuitBreaker)
    (h : cb.state = .opn) : (recordFailures cb ts).state = .opn := by
  induction ts generalizing cb with
  | nil => exact h
  | cons t ts ih =>
    exact ih (record_failure cb t) (record_failure_state_opn cb t h)

theorem recordFailures_config (ts : List ℚ) (cb : CircuitBreaker) :
    (recordFailures cb ts).recovery_timeout = cb.recovery_timeout := by
  induction ts generalizing cb with
  | nil => rfl
  | cons t ts ih =>
    calc (recordFailures (record_failure cb t) ts).recovery_timeout
        = (record_failure cb t).recovery_timeout := ih _
      _ = cb.recovery_timeout := (record_failure_config cb t).2.1

theorem recordFailures_reaches_opn (ts : List ℚ) (cb : CircuitBreaker)
    (hs : cb.state = .closed) (hne : ts ≠ [])
    (hth : cb.failure_threshold ≤ cb.failure_count + ts.length) :
    (recordFailures cb ts).state = .opn := by
  induction ts generalizing cb with
  | nil => exact absurd rfl hne
  | cons t ts ih =>
    by_cases h1 : cb.failure_threshold ≤ cb.failure_count + 1
    · exact recordFailures_opn_stays ts _ (record_failure_opens cb t hs h1)
    · rcases List.eq_nil_or_concat ts with h | _
      · subst h
        simp only [List.length_cons, List.length_nil] at hth
        exact absurd hth h1
      · have hne' : ts ≠ [] := by
          rintro rfl
          simp only [List.length_cons, List.length_nil] at hth
          exact h1 hth
        refine ih (record_failure cb t) (record_failure_state_closed cb t hs h1) hne' ?_
        rw [record_failure_count, (record_failure_config cb t).1]
        simp only [List.length_cons] at hth
        omega

theorem record_failure_half_opn (cb : CircuitBreaker) (t : ℚ)
    (h : cb.state = .halfOpen) : (record_failure cb t).state = .opn := by
  simp only [record_failure, h]

theorem search_attempt_open (cb : CircuitBreaker) (t : ℚ) (x : Bool)
    (hs : cb.state = .opn)
    (ht : t - cb.last_failure_time < cb.recovery_timeout) :
    search_attempt cb t x = (some .breakerOpen, cb, false) := by
  simp [search_attempt, can_execute_open_early cb t hs ht]

theorem round_half_even_intCast (n : ℤ) : round_half_even (n : ℚ) = n := by
  simp only [round_half_even, Int.floor_intCast, sub_self]
  norm_num

theorem round_half_even_nonneg (q : ℚ) (h : 0 ≤ q) : 0 ≤ round_half_even q := by
  have hf : 0 ≤ ⌊q⌋ := Int.floor_nonneg.mpr h
  simp only [round_half_even]
  split_ifs <;> omega

theorem round_half_even_le (q : ℚ) (n : ℤ) (h : q ≤ n) :
    round_half_even q ≤ n := by
  have hfn : ⌊q⌋ ≤ n := by
    have := Int.floor_le_floor h
    simpa using this
  simp only [round_half_even]
  split_ifs with h1 h2 h3
  · exact hfn
  all_goals
    have hq : (⌊q⌋ : ℚ) < q := by linarith
    have : ⌊q⌋ < n := by exact_mod_cast lt_of_lt_of_le hq h
    omega

theorem pyRound1_intCast_div (n : ℤ) : pyRound1 ((n : ℚ) / 10) = (n : ℚ) / 10 := by
  have h10 : ((n : ℚ) / 10) * 10 = (n : ℚ) := by
    field_simp
  simp only [pyRound1, h10, round_half_even_intCast]

theorem pyRound1_nonneg (q : ℚ) (h : 0 ≤ q) : 0 ≤ pyRound1 q := by
  have := round_half_even_nonneg (q * 10) (by positivity)
  simp only [pyRound1]
  positivity

theorem pyRound1_le (q : ℚ) (n : ℤ) (h : q ≤ n) : pyRound1 q ≤ n := by
  have h1 : q * 10 ≤ ((10 * n : ℤ) : ℚ) := by
    push_cast
    linarith
  have h2 := round_half_even_le (q * 10) (10 * n) h1
  simp only [pyRound1]
  rw [div_le_iff₀ (by norm_num : (0 : ℚ) < 10)]
  calc ((round_half_even (q * 10) : ℤ) : ℚ) ≤ ((10 * n : ℤ) : ℚ) := by
        exact_mod_cast h2
    _ = (n : ℚ) * 10 := by push_cast; ring

theorem pyRound1_natCast_div (n : ℕ) : pyRound1 ((n : ℚ) / 10) = (n : ℚ) / 10 := by
  have h := pyRound1_intCast_div (n : ℤ)
  push_cast at h
  exact h

theorem pyRound1_eq_self (q : ℚ) (n : ℤ) (h : q * 10 = (n : ℚ)) :
    pyRound1 q = q := by
  have hq : q = (n : ℚ) / 10 := by
    rw [eq_div_iff (by norm_num : (10 : ℚ) ≠ 0)]
    exact h
  rw [hq, pyRound1_intCast_div]

theorem handleNew_seen (st : MonitorState) (now : ℚ) (p : StreamPost) :
    (handleNew st now p).2.seen_ids =
      if 10000 < (st.seen_ids ++ [p.id]).length then
        (st.seen_ids ++ [p.id]).drop 5000
      else st.seen_ids ++ [p.id] := rfl

theorem handleNew_events (st : MonitorState) (now : ℚ) (p : StreamPost) :
    (handleNew st now p).1 =
      Event.tweet p.id (matchedName st p) (matchedType st p)
        (matchedSignals st p) (urgencyLabel st p)
        (pyRound1 (urgencyScoreOf st p))
        (check_volume_spike st.volume (matchedName st p) now).1 ::
      ((if urgencyLabel st p = "high" ∨ 50 ≤ totalEngagement p then
          [Event.alert
            (if urgencyLabel st p = "high" then "high_urgency"
             else "high_engagement") (matchedName st p)]
        else []) ++
       (if (check_volume_spike st.volume (matchedName st p) now).1.1 then
          [Event.volumeSpike (matchedName st p)
            (check_volume_spike st.volume (matchedName st p) now).1.2]
        else [])) := rfl

theorem handleNew_count (st : MonitorState) (now : ℚ) (p : StreamPost)
    (i : String) :
    countTweetEv i (handleNew st now p).1 = if p.id = i then 1 else 0 := by
  rw [handleNew_events]
  simp only [countTweetEv, List.countP_cons, List.countP_append]
  split_ifs <;> simp_all [List.countP_cons, List.countP_nil]

theorem processPost_ok_seen (st : MonitorState) (tm : ℚ) (p : StreamPost)
    (h : p.id ∈ st.seen_ids) :
    processPost st (tm, Except.ok p) =
      (([], { st with reconnect_attempts := 0 }), false) := by
  simp only [processPost]
  rw [if_pos h]

theorem processPost_ok_new (st : MonitorState) (tm : ℚ) (p : StreamPost)
    (h : p.id ∉ st.seen_ids) :
    processPost st (tm, Except.ok p) =
      (handleNew { st with reconnect_attempts := 0 } tm p, false) := by
  simp only [processPost]
  rw [if_neg h]

theorem processPost_error (st : MonitorState) (tm : ℚ) (e : String) :
    processPost st (tm, Except.error e) =
      (if st.reconnect_attempts + 1 ≤ 5 then
        (([Event.reconnecting (st.reconnect_attempts + 1)
            ((2 : ℚ) ^ (st.reconnect_attempts + 1))],
          { st with reconnect_attempts := st.reconnect_attempts + 1 }), false)
       else
        (([Event.errorEvent e],
          { st with reconnect_attempts := st.reconnect_attempts + 1 }),
          true)) := rfl

theorem countTweetEv_append (i : String) (a b : List Event) :
    countTweetEv i (a ++ b) = countTweetEv i a + countTweetEv i b :=
  List.countP_append _ _ _

theorem okIds_cons_ok (tm : ℚ) (p : StreamPost)
    (rest : List (ℚ × Except String StreamPost)) :
    okIds ((tm, Except.ok p) :: rest) = p.id :: okIds rest := rfl

theorem processPost_seen_le (st : MonitorState)
    (item : ℚ × Except String StreamPost)
    (h : st.seen_ids.length ≤ 10000) :
    (processPost st item).1.2.seen_ids.length ≤ 10000 := by
  rcases item with ⟨tm, x⟩
  cases x with
  | error e =>
    rw [processPost_error]
    split_ifs <;> exact h
  | ok p =>
    by_cases hseen : p.id ∈ st.seen_ids
    · rw [processPost_ok_seen st tm p hseen]
      exact h
    · rw [processPost_ok_new st tm p hseen]
      rw [handleNew_seen]
      dsimp only
      split_ifs with hc <;>
        simp only [List.length_drop, List.length_append,
          List.length_singleton] at hc ⊢ <;>
        omega

theorem processFeed_seen_le (items : List (ℚ × Except String StreamPost))
    (st : MonitorState) (h : st.seen_ids.length ≤ 10000) :
    (processFeed st items).2.seen_ids.length ≤ 10000 := by
  induction items generalizing st with
  | nil => exact h
  | cons item rest ih =>
    simp only [processFeed]
    by_cases hstop : (processPost st item).2 = true
    · rw [if_pos hstop]
      exact processPost_seen_le st item h
    · rw [if_neg hstop]
      exact ih _ (processPost_seen_le st item h)

theorem processFeed_dedup (items : List (ℚ × Except String StreamPost))
    (st : MonitorState) (i : String)
    (hok : ∀ item ∈ items, isOkItem item = true)
    (hcap : st.seen_ids.length + items.length ≤ 10000) :
    countTweetEv i (processFeed st items).1 =
      if i ∈ okIds items ∧ i ∉ st.seen_ids then 1 else 0 := by
  induction items generalizing st with
  | nil => simp [processFeed, countTweetEv, okIds]
  | cons item rest ih =>
    rcases item with ⟨tm, x⟩
    cases x with
    | error e =>
      have h1 := hok (tm, Except.error e) (List.mem_cons_self _ _)
      simp [isOkItem] at h1
    | ok p =>
      have hokr : ∀ it ∈ rest, isOkItem it = true :=
        fun it hit => hok it (List.mem_cons_of_mem _ hit)
      have hcapr : st.seen_ids.length + rest.length + 1 ≤ 10000 := by
        simp only [List.length_cons] at hcap
        omega
      simp only [processFeed]
      by_cases hseen : p.id ∈ st.seen_ids
      · rw [processPost_ok_seen st tm p hseen]
        simp only [Bool.false_eq_true, if_false]
        rw [List.nil_append]
        have h2 := ih { st with reconnect_attempts := 0 } hokr
          (by dsimp only; omega)
        rw [h2, okIds_cons_ok]
        dsimp only
        by_cases hi : i = p.id
        · subst hi
          simp [hseen]
        · simp [List.mem_cons, hi]
      · rw [processPost_ok_new st tm p hseen]
        simp only [Bool.false_eq_true, if_false]
        have hnocap : ¬ 10000 <
            (({ st with reconnect_attempts := 0 } : MonitorState).seen_ids ++
              [p.id]).length := by
          dsimp only
          simp only [List.length_append, List.length_singleton]
          omega
        have hseen' : (handleNew { st with reconnect_attempts := 0 } tm
            p).2.seen_ids = st.seen_ids ++ [p.id] := by
          rw [handleNew_seen, if_neg hnocap]
        have h2 := ih ((handleNew { st with reconnect_attempts := 0 } tm p).2)
          hokr (by rw [hseen']; simp only [List.length_append,
            List.length_singleton]; omega)
        rw [countTweetEv_append, handleNew_count, h2, hseen', okIds_cons_ok]
        by_cases hi : i = p.id
        · subst hi
          simp [hseen, List.mem_append]
        · simp [List.mem_cons, List.mem_append, hi, Ne.symm hi]

theorem pyRound1_urgencyScore (st : MonitorState) (p : StreamPost) :
    pyRound1 (urgencyScoreOf st p) = urgencyScoreOf st p := by
  simp only [urgencyScoreOf]
  by_cases hb1 : (p.author.map StreamAuthor.verified).getD false = true <;>
    by_cases hb2 : 10000 < (p.author.map StreamAuthor.followers).getD 0 <;>
      simp only [hb1, hb2, if_pos, if_neg, if_true, if_false,
        Bool.false_eq_true]
  · exact pyRound1_eq_self _
      (((matchedSignals st p).length : ℤ) * 100 + (totalEngagement p : ℤ) +
        300) (by push_cast; ring)
  · exact pyRound1_eq_self _
      (((matchedSignals st p).length : ℤ) * 100 + (totalEngagement p : ℤ) +
        200) (by push_cast; ring)
  · exact pyRound1_eq_self _
      (((matchedSignals st p).length : ℤ) * 100 + (totalEngagement p : ℤ) +
        100) (by push_cast; ring)
  · exact pyRound1_eq_self _
      (((matchedSignals st p).length : ℤ) * 100 + (totalEngagement p : ℤ))
      (by push_cast; ring)

/-! ## Claims -/

/-- **C1, counterexample.**  The claim states that the trend detector splits
a bucketed series at its midpoint and returns
`is_spiking = velocity_change_percent > 50`.  On the code, `get_tweet_counts`
consumes no bucketed series at all: a successful sample of 60 tweets yields
`velocity_change_percent = 0` together with `is_spiking = true` (and an empty
time series), so `is_spiking` is not `velocity_change_percent > 50`. -/
theorem trend_detector_counterexample :
    (get_tweet_counts [60] true).velocity_change_percent = 0 ∧
    (get_tweet_counts [60] true).is_spiking = true ∧
    ¬(50 < (get_tweet_counts [60] true).velocity_change_percent) ∧
    (get_tweet_counts [60] true).time_series = [] := by
  refine ⟨rfl, by decide, by norm_num [get_tweet_counts, countSample], rfl⟩

/-- **C1, amended.**  `get_tweet_counts` performs no midpoint split: for
every fetched sample it returns an empty `time_series`,
`velocity_change_percent = 0`, `is_spiking = (sampled_count > 50)` on
success and `false` (with the error marker) on failure, and
`total_count` = the sampled count.  The midpoint-split detector of the
spec's words (for comparison) does yield velocity `0` / no spike on a
constant two-bucket series and velocity `100` / spike when the second half
doubles the first. -/
theorem trend_detector_amended :
    (∀ pages fetch_ok,
      (get_tweet_counts pages fetch_ok).velocity_change_percent = 0 ∧
      (get_tweet_counts pages fetch_ok).time_series = [] ∧
      (get_tweet_counts pages fetch_ok).is_spiking =
        (fetch_ok && decide (50 < countSample pages 0)) ∧
      (get_tweet_counts pages fetch_ok).total_count =
        (if fetch_ok then countSample pages 0 else 0) ∧
      (get_tweet_counts pages fetch_ok).error = !fetch_ok) ∧
    specTrendDetector [10, 10] = (0, false) ∧
    specTrendDetector [10, 20] = (100, true) := by
  refine ⟨fun pages fetch_ok => ?_, ?_, ?_⟩
  · cases fetch_ok <;> simp [get_tweet_counts]
  · norm_num [specTrendDetector]
  · norm_num [specTrendDetector]

/-- **C2, counterexample.**  With `failure_threshold = 5`, after five
consecutive failed fetch attempts the breaker is open, and the next call to
the `with_retry`-wrapped fetcher does surface the breaker-open error without
attempting network I/O — but not "without any internal retry": the wrapper
catches the breaker-open raise like any exception and makes all three
internal attempts before re-raising it, refuting the claim's "never retried
internally". -/
theorem breaker_open_retry_counterexample :
    (recordFailures freshBreaker [0, 0, 0, 0, 0]).state = .opn ∧
    (searchWithRetry (recordFailures freshBreaker [0, 0, 0, 0, 0]) 0
      (fun _ => false)).result = some .breakerOpen ∧
    (searchWithRetry (recordFailures freshBreaker [0, 0, 0, 0, 0]) 0
      (fun _ => false)).netAttempts = 0 ∧
    (searchWithRetry (recordFailures freshBreaker [0, 0, 0, 0, 0]) 0
      (fun _ => false)).attempts = 3 ∧
    ¬(searchWithRetry (recordFailures freshBreaker [0, 0, 0, 0, 0]) 0
      (fun _ => false)).attempts ≤ 1 := by
  have hcb : recordFailures freshBreaker [0, 0, 0, 0, 0] =
      ⟨5, 60, 3, .opn, 5, 0, 0⟩ := by
    norm_num [recordFailures, record_failure, freshBreaker]
  rw [hcb]
  norm_num [searchWithRetry, retryGo, search_attempt, can_execute]

/-- **C2, amended.**  Whenever the breaker is open and the recovery timeout
has not elapsed, a call to the wrapped fetcher surfaces the breaker-open
error and attempts no network I/O, but `with_retry` (which catches every
`Exception`) retries the rejection internally: the call makes all three
internal attempts — each refused by the breaker, none reaching the network —
before the breaker-open error is re-raised to the caller. -/
theorem breaker_open_retried (cb : CircuitBreaker) (now : ℚ) (net : ℕ → Bool)
    (hs : cb.state = .opn)
    (ht : now - cb.last_failure_time < cb.recovery_timeout) :
    searchWithRetry cb now net = ⟨some .breakerOpen, 3, 0, cb⟩ := by
  have h : ∀ x, search_attempt cb now x = (some .breakerOpen, cb, false) :=
    fun x => search_attempt_open cb now x hs ht
  simp [searchWithRetry, retryGo, h]

/-- **C2, witness.**  The amended behaviour at the concrete open breaker
`⟨5, 60, 3, open, 5, 0, 0⟩` probed at time 0. -/
theorem breaker_open_retried_witness :
    searchWithRetry ⟨5, 60, 3, .opn, 5, 0, 0⟩ 0 (fun _ => false) =
      ⟨some .breakerOpen, 3, 0, ⟨5, 60, 3, .opn, 5, 0, 0⟩⟩ :=
  breaker_open_retried ⟨5, 60, 3, .opn, 5, 0, 0⟩ 0 (fun _ => false) rfl
    (by norm_num)

/-- **C3 (confirmed).**  (i) For every failure sequence that reaches the
threshold from the closed state, the breaker ends open; every subsequent
`can_execute` before the recovery timeout has elapsed (measured from the
last failure) returns `false` and changes nothing, and the first
`can_execute` after it has elapsed returns `true`, moves to half-open and
resets the probe counter to zero.  (ii) Every single operation only ever
performs the transitions the claim lists. -/
theorem circuit_breaker_transitions :
    (∀ (cb : CircuitBreaker) (ts : List ℚ), cb.state = .closed → ts ≠ [] →
      cb.failure_threshold ≤ cb.failure_count + ts.length →
      (recordFailures cb ts).state = .opn ∧
      (∀ t, t - (recordFailures cb ts).last_failure_time < cb.recovery_timeout →
        can_execute (recordFailures cb ts) t = (false, recordFailures cb ts)) ∧
      (∀ t, cb.recovery_timeout ≤ t - (recordFailures cb ts).last_failure_time →
        can_execute (recordFailures cb ts) t =
          (true, { recordFailures cb ts with
                    state := CircuitState.halfOpen, half_open_calls := 0 }))) ∧
    (∀ (cb : CircuitBreaker) (t : ℚ),
      StepAllowed cb (can_execute cb t).2 t ∧
      StepAllowed cb (record_success cb) t ∧
      StepAllowed cb (record_failure cb t) t) := by
  constructor
  · intro cb ts hs hne hth
    have hopn := recordFailures_reaches_opn ts cb hs hne hth
    have hto := recordFailures_config ts cb
    refine ⟨hopn, ?_, ?_⟩
    · intro t ht
      exact can_execute_open_early _ t hopn (by rw [hto]; exact ht)
    · intro t ht
      exact can_execute_open_elapsed _ t hopn (by rw [hto]; exact ht)
  · intro cb t
    refine ⟨?_, ?_, ?_⟩
    · cases hst : cb.state with
      | closed =>
        have h2 : (can_execute cb t).2 = cb := by simp [can_execute, hst]
        rw [h2]
        exact Or.inl rfl
      | opn =>
        by_cases hel : cb.recovery_timeout ≤ t - cb.last_failure_time
        · rw [can_execute_open_elapsed cb t hst hel]
          exact Or.inr (Or.inr (Or.inl ⟨hst, rfl, hel, rfl⟩))
        · rw [can_execute_open_early cb t hst (not_le.mp hel)]
          exact Or.inl rfl
      | halfOpen =>
        have h2 : (can_execute cb t).2 = cb := by simp [can_execute, hst]
        rw [h2]
        exact Or.inl rfl
    · cases hst : cb.state with
      | closed =>
        have h2 : (record_success cb).state = cb.state := by
          simp [record_success, hst]
        exact Or.inl h2
      | opn =>
        have h2 : record_success cb = cb := by simp [record_success, hst]
        rw [h2]
        exact Or.inl rfl
      | halfOpen =>
        by_cases hq : cb.half_open_max_calls ≤ cb.half_open_calls + 1
        · have h2 : (record_success cb).state = .closed := by
            simp only [record_success, hst]
            rw [if_pos hq]
          exact Or.inr (Or.inr (Or.inr (Or.inl ⟨hst, h2, hq⟩)))
        · have h2 : (record_success cb).state = cb.state := by
            simp only [record_success, hst]
            rw [if_neg hq]
          exact Or.inl h2
    · cases hst : cb.state with
      | closed =>
        by_cases hth : cb.failure_threshold ≤ cb.failure_count + 1
        · refine Or.inr (Or.inl ⟨hst, record_failure_opens cb t hst hth, ?_⟩)
          rw [record_failure_count]
          exact hth
        · exact Or.inl (by
            rw [record_failure_state_closed cb t hst hth, hst])
      | opn =>
        exact Or.inl (by rw [record_failure_state_opn cb t hst, hst])
      | halfOpen =>
        exact Or.inr (Or.inr (Or.inr (Or.inr
          ⟨hst, record_failure_half_opn cb t hst⟩)))

/-- **C3, witness.**  The transition behaviour at the fresh five-threshold
breaker driven by five failures at times 10..14: the breaker is open, a
probe at time 30 (16 seconds after the last failure) is refused, and a probe
at time 80 (66 seconds after) is admitted into half-open; plus one concrete
step-soundness instance. -/
theorem circuit_breaker_transitions_witness :
    (recordFailures freshBreaker [10, 11, 12, 13, 14]).state = .opn ∧
    can_execute (recordFailures freshBreaker [10, 11, 12, 13, 14]) 30 =
      (false, recordFailures freshBreaker [10, 11, 12, 13, 14]) ∧
    can_execute (recordFailures freshBreaker [10, 11, 12, 13, 14]) 80 =
      (true, { recordFailures freshBreaker [10, 11, 12, 13, 14] with
                state := CircuitState.halfOpen, half_open_calls := 0 }) ∧
    StepAllowed freshBreaker (record_failure freshBreaker 0) 0 := by
  have h := circuit_breaker_transitions.1 freshBreaker [10, 11, 12, 13, 14]
    rfl (by simp) (by norm_num [freshBreaker])
  have hlast : (recordFailures freshBreaker [10, 11, 12, 13, 14]).last_failure_time
      = 14 := by
    norm_num [recordFailures, record_failure, freshBreaker]
  refine ⟨h.1, h.2.1 30 ?_, h.2.2 80 ?_, (circuit_breaker_transitions.2
    freshBreaker 0).2.2⟩
  · rw [hlast]
    norm_num [freshBreaker]
  · rw [hlast]
    norm_num [freshBreaker]

/-- **C4 (confirmed).**  For every attempt and every admissible jitter draw
`u ∈ [-1, 1]`, the backoff delay equals `min(base_delay * 2^attempt,
max_delay)` plus the draw scaled by `jitter * delay`; for a fixed draw the
delay is monotone non-decreasing in the attempt number, non-negative, and
never exceeds `max_delay * (1 + jitter)`. -/
theorem backoff_monotone_bounded
    (base_delay max_delay jitter u : ℚ) (a a' : ℕ)
    (hb : 0 ≤ base_delay) (hbm : base_delay ≤ max_delay)
    (hj0 : 0 ≤ jitter) (hj1 : jitter ≤ 1)
    (hu1 : -1 ≤ u) (hu2 : u ≤ 1) (haa : a ≤ a') :
    exponential_backoff_with_jitter a base_delay max_delay jitter u =
      min (base_delay * 2 ^ a) max_delay +
        u * (min (base_delay * 2 ^ a) max_delay * jitter) ∧
    exponential_backoff_with_jitter a base_delay max_delay jitter u ≤
      exponential_backoff_with_jitter a' base_delay max_delay jitter u ∧
    0 ≤ exponential_backoff_with_jitter a base_delay max_delay jitter u ∧
    exponential_backoff_with_jitter a base_delay max_delay jitter u ≤
      max_delay * (1 + jitter) := by
  have hmax0 : 0 ≤ max_delay := le_trans hb hbm
  have e : ∀ n : ℕ, exponential_backoff_with_jitter n base_delay max_delay jitter u =
      min (base_delay * 2 ^ n) max_delay * (1 + u * jitter) := by
    intro n
    simp only [exponential_backoff_with_jitter]
    ring
  have hbb' : min (base_delay * 2 ^ a) max_delay ≤
      min (base_delay * 2 ^ a') max_delay := by
    refine min_le_min ?_ le_rfl
    exact mul_le_mul_of_nonneg_left
      (pow_le_pow_right₀ (by norm_num : (1 : ℚ) ≤ 2) haa) hb
  have hb0 : 0 ≤ min (base_delay * 2 ^ a) max_delay :=
    le_min (by positivity) hmax0
  have hbmax : min (base_delay * 2 ^ a) max_delay ≤ max_delay :=
    min_le_right _ _
  have hfac0 : 0 ≤ 1 + u * jitter := by nlinarith
  have hfac1 : 1 + u * jitter ≤ 1 + jitter := by nlinarith
  refine ⟨by simp only [exponential_backoff_with_jitter], ?_, ?_, ?_⟩
  · rw [e a, e a']
    exact mul_le_mul_of_nonneg_right hbb' hfac0
  · rw [e a]
    exact mul_nonneg hb0 hfac0
  · rw [e a]
    exact mul_le_mul hbmax hfac1 hfac0 hmax0

/-- **C4, witness.**  The backoff properties at `attempt 2 ≤ attempt 5` with
the default `base_delay = 1`, `max_delay = 60`, `jitter = 0.1` and the draw
`u = 1/2`. -/
theorem backoff_monotone_bounded_witness :
    exponential_backoff_with_jitter 2 1 60 (1 / 10) (1 / 2) ≤
      exponential_backoff_with_jitter 5 1 60 (1 / 10) (1 / 2) ∧
    exponential_backoff_with_jitter 5 1 60 (1 / 10) (1 / 2) ≤
      60 * (1 + 1 / 10) :=
  ⟨(backoff_monotone_bounded 1 60 (1 / 10) (1 / 2) 2 5 (by norm_num)
      (by norm_num) (by norm_num) (by norm_num) (by norm_num) (by norm_num)
      (by norm_num)).2.1,
   (backoff_monotone_bounded 1 60 (1 / 10) (1 / 2) 5 5 (by norm_num)
      (by norm_num) (by norm_num) (by norm_num) (by norm_num) (by norm_num)
      (by norm_num)).2.2.2⟩

/-- **C5, counterexample.**  The claim's scenario miscomputes the weighted
sum: for `retweets=100, likes=50, replies=10, quotes=5, business tier,
200000 followers` the code yields `engagement_score = 100*3 + 5*2 + 10*1.5
+ 50 = 375` (not 475) and `credibility_score = 375*2 + 10*10 = 850`
(not 1050). -/
theorem credibility_scorer_counterexample :
    (score_post 50 100 10 5 true "business" 200000).engagement_score = 375 ∧
    (score_post 50 100 10 5 true "business" 200000).engagement_score ≠ 475 ∧
    (score_post 50 100 10 5 true "business" 200000).credibility_score = 850 ∧
    (score_post 50 100 10 5 true "business" 200000).credibility_score ≠ 1050 := by
  refine ⟨?_, ?_, ?_, ?_⟩ <;> norm_num [score_post]

/-- **C5, amended.**  The scoring block of `search_recent_tweets` computes
exactly the claimed formulas — weighted engagement, the tier-based
verification weight, influence capped at 10, and
`credibility = engagement * weight + influence * 10` — but the claimed
scenario (`retweets=100, likes=50, replies=10, quotes=5, business tier,
200000 followers`) yields `engagement_score = 375`, `verification_weight =
2.0`, `influence_score = 10` (capped) and `credibility_score = 850`. -/
theorem credibility_scorer_formula (likes retweets replies quotes : ℕ)
    (is_verified : Bool) (verified_type : String) (followers : ℕ) :
    ((score_post likes retweets replies quotes is_verified verified_type
        followers).engagement_score =
      (retweets : ℚ) * 3 + (quotes : ℚ) * 2 + (replies : ℚ) * (3 / 2) +
        (likes : ℚ)) ∧
    ((score_post likes retweets replies quotes is_verified verified_type
        followers).verification_weight =
      if verified_type = "business" ∨ verified_type = "government" then 2
      else if is_verified then 3 / 2 else 1) ∧
    ((score_post likes retweets replies quotes is_verified verified_type
        followers).influence_score = min ((followers : ℚ) / 10000) 10) ∧
    ((score_post likes retweets replies quotes is_verified verified_type
        followers).credibility_score =
      (score_post likes retweets replies quotes is_verified verified_type
        followers).engagement_score *
      (score_post likes retweets replies quotes is_verified verified_type
        followers).verification_weight +
      (score_post likes retweets replies quotes is_verified verified_type
        followers).influence_score * 10) ∧
    score_post 50 100 10 5 true "business" 200000 = ⟨375, 2, 10, 850⟩ := by
  refine ⟨rfl, rfl, rfl, rfl, ?_⟩
  norm_num [score_post]

/-- **C8 (confirmed).**  The scorer is a pure function of its inputs, and
raising any single engagement count (retweets, quotes, replies or likes) by
a positive `δ`, all other inputs fixed, strictly increases
`credibility_score`. -/
theorem scorer_strict_monotone (likes retweets replies quotes : ℕ)
    (is_verified : Bool) (verified_type : String) (followers : ℕ)
    (δ : ℕ) (hδ : 0 < δ) :
    (score_post likes retweets replies quotes is_verified verified_type
        followers =
      score_post likes retweets replies quotes is_verified verified_type
        followers) ∧
    ((score_post likes retweets replies quotes is_verified verified_type
        followers).credibility_score <
      (score_post likes (retweets + δ) replies quotes is_verified
        verified_type followers).credibility_score) ∧
    ((score_post likes retweets replies quotes is_verified verified_type
        followers).credibility_score <
      (score_post likes retweets replies (quotes + δ) is_verified
        verified_type followers).credibility_score) ∧
    ((score_post likes retweets replies quotes is_verified verified_type
        followers).credibility_score <
      (score_post likes retweets (replies + δ) quotes is_verified
        verified_type followers).credibility_score) ∧
    ((score_post (likes + δ) retweets replies quotes is_verified
        verified_type followers).credibility_score >
      (score_post likes retweets replies quotes is_verified verified_type
        followers).credibility_score) := by
  have hw := weight_pos likes retweets replies quotes is_verified
    verified_type followers
  simp only [score_post] at hw ⊢
  have hδq : (0 : ℚ) < (δ : ℕ) := by exact_mod_cast hδ
  refine ⟨trivial, ?_, ?_, ?_, ?_⟩ <;>
    · push_cast
      nlinarith [hw, hδq]

/-- **C8, witness.**  One extra retweet on the zero post strictly increases
the credibility score. -/
theorem scorer_strict_monotone_witness :
    (score_post 0 0 0 0 false "none" 0).credibility_score <
      (score_post 0 1 0 0 false "none" 0).credibility_score :=
  (scorer_strict_monotone 0 0 0 0 false "none" 0 1 (by norm_num)).2.1

/-- **C9 (confirmed).**  For every institution name and every external
classifier, `analyze_sentiment` on an empty post list returns the `LOW`
verdict with empty `key_findings` (and zero tweet count) rather than
raising or consulting the classifier. -/
theorem classifier_empty_posts (classify : List FetchedTweet → Verdict)
    (bank_name : String) :
    analyze_sentiment classify bank_name [] =
      ⟨"LOW", "No recent tweets found mentioning " ++ bank_name ++ ".",
        [], 0⟩ ∧
    (analyze_sentiment classify bank_name []).risk_level = "LOW" ∧
    (analyze_sentiment classify bank_name []).key_findings = [] := by
  refine ⟨rfl, rfl, rfl⟩

/-- **C10, counterexample.**  `_calculate_credibility` rounds to one
decimal place (`round(score, 1)`), so the attached score does not equal the
claim's unrounded formula: at 1234 followers, unverified, the code returns
`1.2` while `min(1234/1000, 50) + 0 = 1.234`. -/
theorem stream_credibility_counterexample :
    calculate_credibility 1234 false "none" = 6 / 5 ∧
    min ((1234 : ℚ) / 1000) 50 + 0 = (1234 : ℚ) / 1000 ∧
    calculate_credibility 1234 false "none" ≠ (1234 : ℚ) / 1000 := by
  have hmin : min ((1234 : ℚ) / 1000) 50 = 617 / 500 := by
    rw [min_eq_left (by norm_num : (1234 : ℚ) / 1000 ≤ 50)]
    norm_num
  have hfloor : ⌊(617 / 50 : ℚ)⌋ = 12 := by
    rw [Int.floor_eq_iff]
    norm_num
  have hval : calculate_credibility 1234 false "none" = 6 / 5 := by
    simp only [calculate_credibility, Bool.false_eq_true, if_false, pyRound1,
      round_half_even, hmin]
    norm_num [hfloor]
  refine ⟨hval, by norm_num, ?_⟩
  rw [hval]
  norm_num

/-- **C10, amended.**  The live-stream author credibility score equals the
claim's formula — `min(followers/1000, 50)` plus a bonus of 40 for a
verified business tier, 50 for a verified government tier, 25 for any other
verified account and 0 if unverified — **rounded to one decimal place**; it
always lies in `[0, 100]`, and it is a different formula from the fetch-path
credibility score (the two disagree at, e.g., a verified business author
with 20000 followers and zero engagement: 60 vs 20). -/
theorem stream_credibility_amended (followers : ℕ) (verified : Bool)
    (verified_type : String) :
    calculate_credibility followers verified verified_type =
      pyRound1 (min ((followers : ℚ) / 1000) 50 +
        (if verified then
          (if verified_type = "business" then 40
           else if verified_type = "government" then 50 else 25)
         else 0)) ∧
    0 ≤ calculate_credibility followers verified verified_type ∧
    calculate_credibility followers verified verified_type ≤ 100 ∧
    calculate_credibility 20000 true "business" ≠
      (score_post 0 0 0 0 true "business" 20000).credibility_score := by
  have hbonus0 : (0 : ℚ) ≤ (if verified then
      (if verified_type = "business" then (40 : ℚ)
       else if verified_type = "government" then 50 else 25)
     else 0) := by
    split_ifs <;> norm_num
  have hbonus50 : (if verified then
      (if verified_type = "business" then (40 : ℚ)
       else if verified_type = "government" then 50 else 25)
     else 0) ≤ 50 := by
    split_ifs <;> norm_num
  have hmin0 : (0 : ℚ) ≤ min ((followers : ℚ) / 1000) 50 :=
    le_min (by positivity) (by norm_num)
  have hmin50 : min ((followers : ℚ) / 1000) 50 ≤ 50 := min_le_right _ _
  have heq : calculate_credibility followers verified verified_type =
      pyRound1 (min ((followers : ℚ) / 1000) 50 +
        (if verified then
          (if verified_type = "business" then 40
           else if verified_type = "government" then 50 else 25)
         else 0)) := by
    simp only [calculate_credibility]
    split_ifs <;> simp
  refine ⟨heq, ?_, ?_, ?_⟩
  · rw [heq]
    exact pyRound1_nonneg _ (by linarith)
  · rw [heq]
    have := pyRound1_le (min ((followers : ℚ) / 1000) 50 +
      (if verified then
        (if verified_type = "business" then (40 : ℚ)
         else if verified_type = "government" then 50 else 25)
       else 0)) 100 (by push_cast; linarith)
    exact le_trans this (by norm_num)
  · have h60 : calculate_credibility 20000 true "business" = 60 := by
      have hm : min ((20000 : ℚ) / 1000) 50 = 20 := by
        rw [min_eq_left (by norm_num : (20000 : ℚ) / 1000 ≤ 50)]
        norm_num
      have h600 := pyRound1_intCast_div 600
      norm_num at h600
      simp only [calculate_credibility, if_pos, hm]
      norm_num [h600]
    have h20 : (score_post 0 0 0 0 true "business" 20000).credibility_score
        = 20 := by
      norm_num [score_post]
    rw [h60, h20]
    norm_num

/-- **C6 (confirmed).**  The stream loop keeps the seen-id set bounded by
the cap 10000 (evicting the older half, in insertion order, when the cap is
exceeded), and it deduplicates: over any feed of posts during which no
eviction occurs (so every id stays in the seen set), each id produces
exactly one `tweet` event when it occurs in the feed and was not already
seen, and none otherwise — in particular, feeding the same post id twice
yields exactly one `tweet` event. -/
theorem stream_dedup :
    (∀ (st : MonitorState) (items : List (ℚ × Except String StreamPost)),
      st.seen_ids.length ≤ 10000 →
      (processFeed st items).2.seen_ids.length ≤ 10000) ∧
    (∀ (st : MonitorState) (items : List (ℚ × Except String StreamPost))
      (i : String),
      (∀ item ∈ items, isOkItem item = true) →
      st.seen_ids.length + items.length ≤ 10000 →
      countTweetEv i (processFeed st items).1 =
        if i ∈ okIds items ∧ i ∉ st.seen_ids then 1 else 0) :=
  ⟨fun st items h => processFeed_seen_le items st h,
   fun st items i hok hcap => processFeed_dedup items st i hok hcap⟩

/-- **C6, witness.**  Feeding the same post twice into an empty monitor
yields exactly one `tweet` event carrying its id. -/
theorem stream_dedup_witness :
    countTweetEv "t2" (processFeed emptyMonitor
      [(0, Except.ok plainPost), (1, Except.ok plainPost)]).1 = 1 := by
  have h := stream_dedup.2 emptyMonitor
    [(0, Except.ok plainPost), (1, Except.ok plainPost)] "t2"
    (by
      intro item hit
      simp only [List.mem_cons, List.mem_singleton] at hit
      rcases hit with rfl | rfl | h
      · rfl
      · rfl
      · simp at h)
    (by simp [emptyMonitor])
  rw [h]
  simp [okIds, plainPost, emptyMonitor]

/-- **C7 (confirmed).**  For every unseen streamed post, the first emitted
event is the `tweet` event whose urgency score is
`10 * matched_keyword_count + total_engagement / 10`, plus 20 when the
author is verified and 10 when the author has more than 10000 followers
(the stored one-decimal rounding is exact), and whose urgency label is
`high` when the score is at least 50 or at least 3 keywords matched,
`medium` when the score is at least 20 or at least one keyword matched,
and `low` otherwise. -/
theorem stream_urgency (st : MonitorState) (now : ℚ) (p : StreamPost)
    (hnew : p.id ∉ st.seen_ids) :
    ((processPost st (now, Except.ok p)).1.1).head? =
      some (Event.tweet p.id (matchedName st p) (matchedType st p)
        (matchedSignals st p) (urgencyLabel st p) (urgencyScoreOf st p)
        (check_volume_spike st.volume (matchedName st p) now).1) ∧
    urgencyScoreOf st p =
      10 * ((matchedSignals st p).length : ℚ) + (totalEngagement p : ℚ) / 10 +
        (if (p.author.map StreamAuthor.verified).getD false then 20 else 0) +
        (if 10000 < (p.author.map StreamAuthor.followers).getD 0 then 10
         else 0) ∧
    urgencyLabel st p =
      (if 50 ≤ urgencyScoreOf st p ∨ 3 ≤ (matchedSignals st p).length then
        "high"
       else if 20 ≤ urgencyScoreOf st p ∨ 1 ≤ (matchedSignals st p).length
       then "medium"
       else "low") := by
  refine ⟨?_, ?_, rfl⟩
  · rw [processPost_ok_new st now p hnew]
    show ((handleNew { st with reconnect_attempts := 0 } now p).1).head? = _
    rw [handleNew_events]
    simp only [List.head?_cons]
    rw [pyRound1_urgencyScore]
    rfl
  · simp only [urgencyScoreOf]
    ring

/-- **C7, witness.**  A post matching the monitored Coinbase rule with the
keywords `hack` and `outage` in its text, engagement 100, and a verified
business author with 20000 followers scores `2*10 + 100/10 + 20 + 10 = 60`
and is labelled `high`. -/
theorem stream_urgency_witness :
    ((processPost coinbaseMonitor (0, Except.ok alertPost)).1.1).head? =
      some (Event.tweet "t1" "Coinbase" "crypto_exchange" ["hack", "outage"]
        "high" 60 (false, 1)) := by
  have h := stream_urgency coinbaseMonitor 0 alertPost (by simp [coinbaseMonitor])
  have hsig : matchedSignals coinbaseMonitor alertPost = ["hack", "outage"] := by
    decide
  have hname : matchedName coinbaseMonitor alertPost = "Coinbase" := by decide
  have htype : matchedType coinbaseMonitor alertPost = "crypto_exchange" := by
    decide
  have hte : totalEngagement alertPost = 100 := by decide
  have hb1 : (alertPost.author.map StreamAuthor.verified).getD false = true := by
    decide
  have hb2 : 10000 < (alertPost.author.map StreamAuthor.followers).getD 0 := by
    decide
  have hvol : (check_volume_spike coinbaseMonitor.volume "Coinbase" 0).1 =
      (false, 1) := by decide
  have hscore : urgencyScoreOf coinbaseMonitor alertPost = 60 := by
    rw [h.2.1, hsig, hte]
    rw [if_pos hb1, if_pos hb2]
    norm_num
  have hlab : urgencyLabel coinbaseMonitor alertPost = "high" := by
    rw [h.2.2, hscore, hsig]
    rw [if_pos]
    exact Or.inl (by norm_num)
  rw [h.1, hsig, hname, htype, hscore, hlab, hvol]
  rfl

end FinXWatcher
